import Mathlib

/-!
Verification of the srsRAN MAC-scheduler specification against the sources.

The development shallowly embeds, in Lean, the parts of the repository the
claims are about:

* `src/srsenb/test/mac/sched_test_common.h` — the scheduler test-harness
  declarations (`common_sched_tester`, `sched_result_stats`), embedded as
  declaration metadata and as functional models of their behaviour;
* `src/lib/examples/usrp_capture.c` — the RF sample-capture utility
  (`parse_args`, the receive loop of `main`), embedded operationally;
* the MAC pcap writer interface (`mac_pcap_base`), embedded from its
  header declarations.

The scheduler core itself (HARQ entity, user context, resource-grid
allocator, façade) is not among the sources; where a claim depends on it,
the corresponding definition is modelled from the specification text and
is marked `Modelled from the spec:` in its doc comment.

Machine integers of the C/C++ sources are modelled as `Nat`/`Int`; the
single `float` that matters (`rf_freq`, only ever compared against zero)
is modelled as `ℚ`.
-/

/-! ## C++ class-declaration metadata (from src/srsenb/test/mac/sched_test_common.h) -/

/-- Metadata of a C++ class declaration: its name and its public base
classes, as written in the source header. -/
structure cpp_class_decl where
  name : String
  public_bases : List String
deriving DecidableEq

/-- Embedded from `src/srsenb/test/mac/sched_test_common.h:71-72`:
`// Intrusive Scheduler Tester` / `class common_sched_tester : public sched`.
The simulation/test harness class derives publicly from the production
scheduler class `sched`. -/
def common_sched_tester_decl : cpp_class_decl :=
  { name := "common_sched_tester", public_bases := ["sched"] }

/-- Embedded from `src/srsenb/test/mac/sched_test_common.h:46`:
`class sched_result_stats` — the statistics collaborator is a standalone
class with no base class. -/
def sched_result_stats_decl : cpp_class_decl :=
  { name := "sched_result_stats", public_bases := [] }

/-- Name of the production scheduler class (`srsenb::sched`, the base of the
tester at `sched_test_common.h:72`). -/
def production_scheduler_class : String := "sched"

/-- Whether a class declaration subclasses the production scheduler, i.e.
lists `sched` among its public bases. -/
def subclasses_production_scheduler (c : cpp_class_decl) : Bool :=
  c.public_bases.contains production_scheduler_class

/-! ## Capture utility: argument parsing (src/lib/examples/usrp_capture.c) -/

/-- Embedded from `usrp_capture.c:40`: `rf_freq = -1.0` — the default value
of the receive frequency before `parse_args` runs.  The C `float` is
modelled as `ℚ`; the program only ever compares it with zero. -/
def rf_freq_default : ℚ := -1

/-- The receive frequency after the option loop of `parse_args`
(`usrp_capture.c:62-97`): the value parsed from the last `-f` option when
one was supplied, otherwise the default `-1.0`. -/
def parse_args_freq (freq_opt : Option ℚ) : ℚ :=
  freq_opt.getD rf_freq_default

/-- Embedded from `usrp_capture.c:98-101`: after the option loop,
`if (rf_freq < 0) { usage(argv[0]); exit(-1); }`.  The exit is modelled as
`Except.error` carrying the exit status; printing the usage message is a
side effect with no further program-visible state and is not modelled. -/
def parse_args (freq_opt : Option ℚ) : Except Int ℚ :=
  let rf_freq := parse_args_freq freq_opt
  if rf_freq < 0 then Except.error (-1) else Except.ok rf_freq

/-- In `main` (`usrp_capture.c:138` onwards) the capture loop is reached
only if `parse_args` returned normally. -/
def capture_loop_runs (freq_opt : Option ℚ) : Bool :=
  match parse_args freq_opt with
  | Except.ok _ => true
  | Except.error _ => false

/-! ## User context (scheduler core; not among the sources) -/

/-- Modelled from the spec: the per-user context of §4.2 — pending
buffer-status bytes per logical channel and channel-quality indicator per
carrier.  The scheduler core sources are not in the repository snapshot;
the state is a total map, absent channels holding zero pending bytes. -/
structure ue_ctxt where
  bsr : Nat → Nat
  cqi : Nat → Nat

/-- Modelled from the spec: `update_bsr(logical_channel, bytes_pending)`
(§4.2) — a buffer-status report replaces the pending-byte count of the
reported logical channel. -/
def update_bsr (u : ue_ctxt) (lc bytes : Nat) : ue_ctxt :=
  { u with bsr := fun x => if x = lc then bytes else u.bsr x }

/-- Modelled from the spec: `consume_granted(logical_channel, bytes)`
(§4.2) — "decrements outstanding backlog by the granted amount, floored at
zero".  With `Nat` counters the floor is truncated subtraction. -/
def consume_granted (u : ue_ctxt) (lc bytes : Nat) : ue_ctxt :=
  { u with bsr := fun x => if x = lc then u.bsr x - bytes else u.bsr x }

/-! ## Theorems: C6, C10, C4 -/

/-- Claim C6 counterexample: the claim that the simulation/test harness
drives the production scheduler with no subclassing of its internal state
is false on this code: `common_sched_tester` (sched_test_common.h:72) is
declared `: public sched`, subclassing the production scheduler. -/
theorem C6_counterexample :
    subclasses_production_scheduler common_sched_tester_decl = true := rfl

/-- Claim C6 (amended): the test harness `common_sched_tester` is an
intrusive tester that publicly subclasses the production scheduler class
`sched`; only the statistics collaborator `sched_result_stats` is a
standalone class with no base. -/
theorem C6_harness_subclasses_scheduler :
    common_sched_tester_decl.public_bases = [production_scheduler_class]
      ∧ sched_result_stats_decl.public_bases = [] :=
  ⟨rfl, rfl⟩

/-- Claim C10: with no `-f` option the frequency keeps its default `-1.0`
and `parse_args` exits with status `-1`; any parsed negative frequency
likewise exits with status `-1`; whenever `parse_args` returns, the
returned frequency is nonnegative; hence the capture loop only runs when
`rf_freq ≥ 0`. -/
theorem C10_parse_args_rejects_negative_freq :
    parse_args none = Except.error (-1)
      ∧ (∀ f : ℚ, f < 0 → parse_args (some f) = Except.error (-1))
      ∧ (∀ freq_opt f, parse_args freq_opt = Except.ok f → 0 ≤ f)
      ∧ (∀ freq_opt, capture_loop_runs freq_opt = true →
          0 ≤ parse_args_freq freq_opt) := by
  refine ⟨rfl, fun f hf => ?_, fun freq_opt f hok => ?_, fun freq_opt hrun => ?_⟩
  · simp [parse_args, parse_args_freq, hf]
  · by_cases h : parse_args_freq freq_opt < 0
    · simp [parse_args, h] at hok
    · simp [parse_args, h] at hok
      exact hok ▸ le_of_not_lt h
  · by_cases h : parse_args_freq freq_opt < 0
    · simp [capture_loop_runs, parse_args, h] at hrun
    · exact le_of_not_lt h

/-- Claim C10 witness: concrete runs — a parsed `-5` frequency is rejected
with exit status `-1`, and with a parsed frequency of `1` the capture loop
runs and the frequency is nonnegative. -/
theorem C10_witness :
    parse_args (some (-5)) = Except.error (-1)
      ∧ 0 ≤ parse_args_freq (some 1) :=
  ⟨C10_parse_args_rejects_negative_freq.2.1 (-5) (by norm_num),
   C10_parse_args_rejects_negative_freq.2.2.2 (some 1) (by norm_num [capture_loop_runs, parse_args, parse_args_freq])⟩

/-- Claim C4: `consume_granted` sets the backlog of the granted logical
channel to `max(backlog - granted, 0)` (stated over `ℤ`), never produces a
negative backlog, never increases any channel's backlog, and leaves every
other channel unchanged; backlog only grows via `update_bsr`. -/
theorem C4_consume_granted_floors_at_zero (u : ue_ctxt) (lc g : Nat) :
    ((consume_granted u lc g).bsr lc : Int) = max ((u.bsr lc : Int) - g) 0
      ∧ (∀ x, (0 : Int) ≤ ((consume_granted u lc g).bsr x : Int))
      ∧ (∀ x, (consume_granted u lc g).bsr x ≤ u.bsr x)
      ∧ (∀ x, x ≠ lc → (consume_granted u lc g).bsr x = u.bsr x) := by
  refine ⟨?_, fun x => ?_, fun x => ?_, fun x hx => ?_⟩
  · have h : (consume_granted u lc g).bsr lc = u.bsr lc - g := by
      simp [consume_granted]
    rw [h]
    omega
  · exact Int.natCast_nonneg _
  · simp only [consume_granted]
    by_cases h : x = lc <;> simp [h]
  · simp [consume_granted, hx]

/-- A concrete user context for the C4 witness: 500 bytes pending on
logical channel 1, nothing elsewhere. -/
def ue_ctxt_demo : ue_ctxt :=
  { bsr := fun lc => if lc = 1 then 500 else 0, cqi := fun _ => 0 }

/-- Claim C4 witness: in the concrete context, granting 200 of the 500
pending bytes on channel 1 leaves 300, and channel 2 is untouched. -/
theorem C4_witness :
    ((consume_granted ue_ctxt_demo 1 200).bsr 1 : Int)
        = max (((500 : Nat) : Int) - 200) 0
      ∧ (consume_granted ue_ctxt_demo 1 200).bsr 2 = ue_ctxt_demo.bsr 2 := by
  have h := C4_consume_granted_floors_at_zero ue_ctxt_demo 1 200
  exact ⟨by simpa [ue_ctxt_demo] using h.1, h.2.2.2 2 (by decide)⟩

/-! ## Scheduler façade: user lifecycle (scheduler core; not among the sources) -/

/-- Modelled from the spec: the per-user configuration supplied at
`add_user`/`reconfigure_user` time (§6 configuration surface).  Only the
fields the lifecycle claims need are kept. -/
structure sched_ue_cfg where
  maxharq_tx : Nat
deriving DecidableEq

/-- Modelled from the spec: the façade's failure codes of §4.5/§7b. -/
inductive sched_lifecycle_err where
  | DuplicateUser
  | CapacityExceeded
  | UnknownUser
deriving DecidableEq

/-- Modelled from the spec: the façade's user table — the active users
(session identifier paired with its configuration) and the configured
maximum concurrent-user count (§4.5, §6). -/
structure sched_facade where
  users : List (Nat × sched_ue_cfg)
  max_users : Nat
deriving DecidableEq

/-- Modelled from the spec: `add_user(id, cfg) -> Result` (§4.5) — "fails
with DuplicateUser if the identifier is already active, CapacityExceeded
if the maximum concurrent-user count is reached"; otherwise the user
context is created. -/
def add_user (s : sched_facade) (id : Nat) (cfg : sched_ue_cfg) :
    Except sched_lifecycle_err sched_facade :=
  if (s.users.lookup id).isSome then Except.error sched_lifecycle_err.DuplicateUser
  else if s.max_users ≤ s.users.length then Except.error sched_lifecycle_err.CapacityExceeded
  else Except.ok { s with users := (id, cfg) :: s.users }

/-! ## Statistics collaborator (sched_result_stats, sched_test_common.h:46-69) -/

/-- One downlink data grant of a per-carrier downlink result, with the
fields the statistics collaborator reads: the addressed user and the
transport-block size in bytes. -/
structure dl_sched_data_t where
  rnti : Nat
  tbs : Nat
deriving DecidableEq

/-- Per-carrier downlink scheduling result (`sched_interface::dl_sched_res_t`):
the list of data grants of one TTI on one carrier. -/
structure dl_sched_res_t where
  data : List dl_sched_data_t
deriving DecidableEq

/-- One uplink grant of a per-carrier uplink result. -/
structure ul_sched_data_t where
  rnti : Nat
  tbs : Nat
deriving DecidableEq

/-- Per-carrier uplink scheduling result (`sched_interface::ul_sched_res_t`). -/
structure ul_sched_res_t where
  pusch : List ul_sched_data_t
deriving DecidableEq

/-- Embedded from `sched_test_common.h:57-61`: per-user statistics record —
the user identifier and, per carrier, the total scheduled downlink and
uplink bytes (retransmissions included). -/
structure user_stats where
  rnti : Nat
  tot_dl_sched_data : List Nat
  tot_ul_sched_data : List Nat
deriving DecidableEq

/-- The statistics collaborator's state (`sched_result_stats::users`,
sched_test_common.h:63): per-user statistics.  The `std::map` with
default-creating `get_user` is modelled as a total map. -/
def stats_state := Nat → user_stats

/-- Bytes scheduled for one user in one carrier's downlink result. -/
def dl_bytes_for (rnti : Nat) (res : dl_sched_res_t) : Nat :=
  (res.data.filter fun d => d.rnti == rnti).foldl (fun acc d => acc + d.tbs) 0

/-- Bytes scheduled for one user in one carrier's uplink result. -/
def ul_bytes_for (rnti : Nat) (res : ul_sched_res_t) : Nat :=
  (res.pusch.filter fun d => d.rnti == rnti).foldl (fun acc d => acc + d.tbs) 0

/-- Modelled from the spec: `sched_result_stats::process_results`
(declared at sched_test_common.h:53-55 with the results passed by
`const` reference) — "receives, per TTI, the full downlink/uplink
assignment result and aggregates per-user throughput counters; read-only
consumer, no feedback into scheduling".  The function returns the results
alongside the new statistics state to make the read-only consumption a
provable statement. -/
def process_results (st : stats_state)
    (dl_result : List dl_sched_res_t) (ul_result : List ul_sched_res_t) :
    stats_state × List dl_sched_res_t × List ul_sched_res_t :=
  (fun r =>
    { rnti := (st r).rnti
      tot_dl_sched_data :=
        List.zipWith (· + ·) ((st r).tot_dl_sched_data) (dl_result.map (dl_bytes_for r))
      tot_ul_sched_data :=
        List.zipWith (· + ·) ((st r).tot_ul_sched_data) (ul_result.map (ul_bytes_for r)) },
   dl_result, ul_result)

/-! ## Protocol-capture collaborator (mac_pcap_base) -/

/-- Embedded from the pcap metadata context: the transmission direction
recorded with each captured PDU; selected by the entry point
(`write_dl_*` vs `write_ul_*`). -/
inductive pcap_direction where
  | DIRECTION_UPLINK
  | DIRECTION_DOWNLINK
deriving DecidableEq

/-- Embedded from `mac_pcap_base.h:303-309` and the `pack_and_queue`
parameter list (mac_pcap_base.h:321-330): everything recorded per PDU —
the already-formed PDU bytes plus the metadata tuple. -/
structure pcap_pdu_t where
  payload : List Nat
  payload_len : Nat
  ue_id : Nat
  reTX : Nat
  crc_ok : Bool
  cc_idx : Nat
  tti : Nat
  crnti : Nat
  direction : pcap_direction
  rnti_type : Nat
deriving DecidableEq

/-- The C-RNTI radio-network-identifier type code recorded with
user-addressed PDUs. -/
def C_RNTI : Nat := 3

/-- Modelled from the spec: `mac_pcap_base::pack_and_queue`
(declared mac_pcap_base.h:321-330) — packs the PDU bytes with the per-PDU
metadata and appends the record to the capture queue
(`mac_pcap_base::queue`). -/
def pack_and_queue (queue : List pcap_pdu_t) (payload : List Nat)
    (payload_len ue_id reTX : Nat) (crc_ok : Bool) (cc_idx tti crnti : Nat)
    (direction : pcap_direction) (rnti_type : Nat) : List pcap_pdu_t :=
  queue ++ [{ payload := payload, payload_len := payload_len, ue_id := ue_id,
              reTX := reTX, crc_ok := crc_ok, cc_idx := cc_idx, tti := tti,
              crnti := crnti, direction := direction, rnti_type := rnti_type }]

/-- Modelled from the spec: `mac_pcap_base::write_dl_crnti`
(declared mac_pcap_base.h:258) — the downlink entry point records the PDU
with direction DOWNLINK and the `crc_ok` success flag. -/
def write_dl_crnti (queue : List pcap_pdu_t) (pdu : List Nat)
    (pdu_len_bytes crnti : Nat) (crc_ok : Bool) (tti cc_idx : Nat) :
    List pcap_pdu_t :=
  pack_and_queue queue pdu pdu_len_bytes 0 1 crc_ok cc_idx tti crnti
    pcap_direction.DIRECTION_DOWNLINK C_RNTI

/-- Modelled from the spec: `mac_pcap_base::write_ul_crnti`
(declared mac_pcap_base.h:256-257) — the uplink entry point records the
PDU with direction UPLINK and the retransmission count `reTX`. -/
def write_ul_crnti (queue : List pcap_pdu_t) (pdu : List Nat)
    (pdu_len_bytes crnti reTX : Nat) (tti cc_idx : Nat) : List pcap_pdu_t :=
  pack_and_queue queue pdu pdu_len_bytes 0 reTX true cc_idx tti crnti
    pcap_direction.DIRECTION_UPLINK C_RNTI

/-! ## Theorems: C5, C7, C8 -/

/-- Claim C5: `add_user(id, cfg)` fails with `DuplicateUser` when the
identifier is already active, fails with `CapacityExceeded` when the
identifier is new but the maximum concurrent-user count has been reached,
and otherwise succeeds and creates the user context (the identifier is
active afterwards, with the supplied configuration). -/
theorem C5_add_user_error_cases (s : sched_facade) (id : Nat) (cfg : sched_ue_cfg) :
    ((s.users.lookup id).isSome →
        add_user s id cfg = Except.error sched_lifecycle_err.DuplicateUser)
      ∧ (s.users.lookup id = none → s.max_users ≤ s.users.length →
          add_user s id cfg = Except.error sched_lifecycle_err.CapacityExceeded)
      ∧ (s.users.lookup id = none → s.users.length < s.max_users →
          ∃ s', add_user s id cfg = Except.ok s'
            ∧ s'.users.lookup id = some cfg
            ∧ s'.users.length = s.users.length + 1) := by
  refine ⟨fun hdup => ?_, fun hnew hfull => ?_, fun hnew hroom => ?_⟩
  · simp [add_user, hdup]
  · simp [add_user, hnew, hfull]
  · refine ⟨{ s with users := (id, cfg) :: s.users }, ?_, ?_, rfl⟩
    · simp [add_user, hnew, Nat.not_le.mpr hroom]
    · simp [List.lookup]

/-- A concrete façade state for the C5 witness: user 1 active, capacity 2. -/
def sched_facade_demo : sched_facade :=
  { users := [(1, { maxharq_tx := 4 })], max_users := 2 }

/-- A concrete full façade state for the C5 witness: users 1 and 2 active,
capacity 2. -/
def sched_facade_full : sched_facade :=
  { users := [(1, { maxharq_tx := 4 }), (2, { maxharq_tx := 4 })], max_users := 2 }

/-- Claim C5 witness: on concrete states, re-adding user 1 yields
`DuplicateUser`, adding user 3 to a full table yields `CapacityExceeded`,
and adding user 2 where there is room succeeds. -/
theorem C5_witness :
    add_user sched_facade_demo 1 { maxharq_tx := 4 }
        = Except.error sched_lifecycle_err.DuplicateUser
      ∧ add_user sched_facade_full 3 { maxharq_tx := 4 }
        = Except.error sched_lifecycle_err.CapacityExceeded
      ∧ ∃ s', add_user sched_facade_demo 2 { maxharq_tx := 4 } = Except.ok s'
          ∧ s'.users.lookup 2 = some { maxharq_tx := 4 }
          ∧ s'.users.length = sched_facade_demo.users.length + 1 :=
  ⟨(C5_add_user_error_cases sched_facade_demo 1 _).1 (by decide),
   (C5_add_user_error_cases sched_facade_full 3 _).2.1 (by decide) (by decide),
   (C5_add_user_error_cases sched_facade_demo 2 _).2.2 (by decide) (by decide)⟩

/-- Claim C7: `process_results` consumes the downlink and uplink results
read-only — it returns them unchanged — and mutates only the per-user
throughput counters: each user's identifier field is untouched and the two
counters change exactly by the per-carrier byte totals aggregated from the
results; nothing is fed back into scheduling (the new statistics state is
the only other output). -/
theorem C7_process_results_read_only (st : stats_state)
    (dl_result : List dl_sched_res_t) (ul_result : List ul_sched_res_t) :
    (process_results st dl_result ul_result).2.1 = dl_result
      ∧ (process_results st dl_result ul_result).2.2 = ul_result
      ∧ (∀ r, ((process_results st dl_result ul_result).1 r).rnti = (st r).rnti)
      ∧ (∀ r, ((process_results st dl_result ul_result).1 r).tot_dl_sched_data
          = List.zipWith (· + ·) ((st r).tot_dl_sched_data)
              (dl_result.map (dl_bytes_for r)))
      ∧ (∀ r, ((process_results st dl_result ul_result).1 r).tot_ul_sched_data
          = List.zipWith (· + ·) ((st r).tot_ul_sched_data)
              (ul_result.map (ul_bytes_for r))) :=
  ⟨rfl, rfl, fun _ => rfl, fun _ => rfl, fun _ => rfl⟩

/-- Claim C8: each capture entry point appends exactly one record to the
queue carrying the already-formed PDU bytes together with the full
metadata tuple — the TTI, the user identifier (RNTI), the direction
selected by the entry point (DOWNLINK for `write_dl_crnti`, UPLINK for
`write_ul_crnti`), and the success information (`crc_ok` for downlink, the
retransmission count `reTX` for uplink). -/
theorem C8_pcap_writes_carry_metadata (queue : List pcap_pdu_t)
    (pdu : List Nat) (pdu_len crnti reTX tti cc_idx : Nat) (crc_ok : Bool) :
    write_dl_crnti queue pdu pdu_len crnti crc_ok tti cc_idx
      = queue ++ [{ payload := pdu, payload_len := pdu_len, ue_id := 0,
                    reTX := 1, crc_ok := crc_ok, cc_idx := cc_idx, tti := tti,
                    crnti := crnti,
                    direction := pcap_direction.DIRECTION_DOWNLINK,
                    rnti_type := C_RNTI }]
      ∧ write_ul_crnti queue pdu pdu_len crnti reTX tti cc_idx
        = queue ++ [{ payload := pdu, payload_len := pdu_len, ue_id := 0,
                      reTX := reTX, crc_ok := true, cc_idx := cc_idx, tti := tti,
                      crnti := crnti,
                      direction := pcap_direction.DIRECTION_UPLINK,
                      rnti_type := C_RNTI }] :=
  ⟨rfl, rfl⟩

/-! ## Capture utility: receive loop (usrp_capture.c:189-203) -/

/-- Embedded from `usrp_capture.c:189`: the loop guard
`(sample_count < nof_samples || nof_samples == -1) && keep_running`.
`sample_count` and `nof_samples` are C `int`, modelled as `Int`. -/
def recvLoopCond (sample_count nof_samples : Int) (keep_running : Bool) : Bool :=
  (sample_count < nof_samples || nof_samples == -1) && keep_running

/-- Embedded from `usrp_capture.c:189-203`: the receive loop of `main`.
Each iteration receives `buflen` samples, processes and writes them, and
executes `sample_count += buflen`.  The claim's assumptions are built in:
every `srsran_rf_recv_with_time_multi` call succeeds (the `n < 0` exit path
is not taken) and no interrupt arrives (`keep_running` stays `true`).  The
loop is indexed by fuel; `some (iterations, final_count)` means the loop
exited within the fuel, `none` that it did not. -/
def recvLoop (buflen : Nat) (nof_samples : Int) :
    Nat → Int → Option (Nat × Int)
  | 0, sample_count =>
    if recvLoopCond sample_count nof_samples true then none
    else some (0, sample_count)
  | fuel + 1, sample_count =>
    if recvLoopCond sample_count nof_samples true then
      match recvLoop buflen nof_samples fuel (sample_count + buflen) with
      | some (iters, fin) => some (iters + 1, fin)
      | none => none
    else some (0, sample_count)

/-- Ceiling division on naturals, `⌈n / b⌉ = (n + b - 1) / b`. -/
def ceil_div (n b : Nat) : Nat := (n + b - 1) / b

theorem ceil_div_mul_ge (n b : Nat) (hb : 0 < b) : n ≤ ceil_div n b * b := by
  have h1 : b * ((n + b - 1) / b) + (n + b - 1) % b = n + b - 1 :=
    Nat.div_add_mod (n + b - 1) b
  have h2 : (n + b - 1) % b < b := Nat.mod_lt _ hb
  have h3 : ceil_div n b * b = b * ((n + b - 1) / b) := by
    rw [ceil_div, Nat.mul_comm]
  omega

theorem ceil_div_pred_mul_lt (n b j : Nat) (hb : 0 < b)
    (hj : j < ceil_div n b) : j * b < n := by
  have h1 : b * ((n + b - 1) / b) + (n + b - 1) % b = n + b - 1 :=
    Nat.div_add_mod (n + b - 1) b
  have h2 : (n + b - 1) % b < b := Nat.mod_lt _ hb
  have hq : j + 1 ≤ ceil_div n b := hj
  have h4 : (j + 1) * b ≤ ceil_div n b * b := Nat.mul_le_mul_right b hq
  have h5 : ceil_div n b * b = b * ((n + b - 1) / b) := by
    rw [ceil_div, Nat.mul_comm]
  have h6 : j * b + b = (j + 1) * b := by ring
  omega

theorem recvLoop_go (b : Nat) (n : Int) (hn : 0 ≤ n) :
    ∀ (k fuel : Nat) (sc : Int), k ≤ fuel →
      (∀ j : Nat, j < k → sc + j * b < n) → n ≤ sc + k * b →
      recvLoop b n fuel sc = some (k, sc + k * b) := by
  intro k
  induction k with
  | zero =>
    intro fuel sc _ _ hle
    have hsc : ¬ (sc < n) := by
      push_cast at hle
      omega
    have hne : (n == (-1 : Int)) = false := by
      simp only [beq_eq_false_iff_ne, ne_eq]
      omega
    have hcond : recvLoopCond sc n true = false := by
      simp [recvLoopCond, hsc, hne]
    cases fuel with
    | zero => simp [recvLoop, hcond]
    | succ f => simp [recvLoop, hcond]
  | succ k ih =>
    intro fuel sc hfuel hlt hle
    cases fuel with
    | zero => omega
    | succ f =>
      have hsc : sc < n := by
        have h0 := hlt 0 (Nat.succ_pos k)
        push_cast at h0
        simpa using h0
      have hcond : recvLoopCond sc n true = true := by
        simp [recvLoopCond, hsc]
      have hrec : recvLoop b n f (sc + b) = some (k, sc + b + k * b) := by
        refine ih f (sc + b) (by omega) (fun j hj => ?_) ?_
        · have h := hlt (j + 1) (by omega)
          push_cast at h ⊢
          nlinarith [h]
        · push_cast at hle ⊢
          nlinarith [hle]
      have hfin : sc + b + (k : Int) * b = sc + ((k : Nat) + 1 : Nat) * b := by
        push_cast
        ring
      simp only [recvLoop, hcond, if_true, hrec]
      rw [hfin]

/-- Claim C9: in the capture utility's receive loop, for every
`nof_samples ≥ 0` (given as a natural) and `buflen > 0`, assuming every
receive call succeeds and no interrupt arrives, the loop terminates after
`ceil(nof_samples / buflen)` iterations with final
`sample_count = ceil(nof_samples / buflen) * buflen ≥ nof_samples`; and
with `nof_samples == -1` the guard reduces to `keep_running`, so the loop
runs exactly until `keep_running` becomes false. -/
theorem C9_recv_loop_terminates (n buflen fuel : Nat) (hb : 0 < buflen)
    (hfuel : ceil_div n buflen ≤ fuel) :
    recvLoop buflen (n : Int) fuel 0
        = some (ceil_div n buflen, ((ceil_div n buflen * buflen : Nat) : Int))
      ∧ (n : Int) ≤ ((ceil_div n buflen * buflen : Nat) : Int)
      ∧ (∀ (sc : Int) (keep_running : Bool),
          recvLoopCond sc (-1) keep_running = keep_running) := by
  refine ⟨?_, ?_, fun sc kr => ?_⟩
  · have h := recvLoop_go buflen (n : Int) (Int.natCast_nonneg n)
      (ceil_div n buflen) fuel 0 hfuel
      (fun j hj => ?_) ?_
    · rw [h]
      push_cast
      ring_nf
    · have h2 : ((j : Int)) * (buflen : Int) < (n : Int) := by
        exact_mod_cast ceil_div_pred_mul_lt n buflen j hb hj
      linarith
    · have h2 : (n : Int) ≤ ((ceil_div n buflen : Int)) * (buflen : Int) := by
        exact_mod_cast ceil_div_mul_ge n buflen hb
      linarith
  · exact_mod_cast ceil_div_mul_ge n buflen hb
  · cases kr <;> simp [recvLoopCond]

/-- Claim C9 witness: with 5 requested samples and a buffer of 2 the loop
runs 3 times and stops at `sample_count = 6 ≥ 5`; with `nof_samples = -1`
the guard at `sample_count = 100` equals `keep_running`. -/
theorem C9_witness :
    recvLoop 2 (5 : Int) 3 0 = some (ceil_div 5 2, ((ceil_div 5 2 * 2 : Nat) : Int))
      ∧ (5 : Int) ≤ ((ceil_div 5 2 * 2 : Nat) : Int)
      ∧ recvLoopCond 100 (-1) true = true ∧ recvLoopCond 100 (-1) false = false := by
  have h := C9_recv_loop_terminates 5 2 3 (by decide) (by decide)
  exact ⟨h.1, h.2.1, h.2.2 100 true, h.2.2 100 false⟩

/-! ## HARQ entity (scheduler core; not among the sources) -/

/-- Modelled from the spec: the per-process state machine of §3 —
EMPTY, PENDING (new transmission sent, awaiting feedback), RETRANSMIT
(NACKed, eligible for resend). -/
inductive harq_state where
  | EMPTY
  | PENDING
  | RETRANSMIT
deriving DecidableEq

/-- Modelled from the spec: one HARQ process — its state, retry counter
and the TTI and transport-block size of the in-flight transmission. -/
structure harq_proc where
  state : harq_state
  n_rtx : Nat
  tx_tti : Nat
  tbs : Nat
deriving DecidableEq

/-- Modelled from the spec: a per-user, per-carrier, per-direction HARQ
entity (§4.1) — a small fixed number of processes, the round-robin
position (index of the process granted last), and the configured maximum
retry count. -/
structure harq_entity where
  procs : List harq_proc
  last_pid : Nat
  max_retx : Nat
deriving DecidableEq

/-- Modelled from the spec: failure codes of §4.1 and §7a. -/
inductive harq_err where
  | NoFreeProcess
  | InvalidProcess
deriving DecidableEq

/-- Round-robin search for the first EMPTY process: starting offset `off`
from position `start`, trying `rem` further slots; indices wrap modulo the
process count. -/
def find_empty_aux (procs : List harq_proc) (start : Nat) : Nat → Nat → Option Nat
  | _, 0 => none
  | off, rem + 1 =>
    match procs[(start + off) % procs.length]? with
    | some p =>
      if p.state = harq_state.EMPTY then some ((start + off) % procs.length)
      else find_empty_aux procs start (off + 1) rem
    | none => none

/-- Modelled from the spec: "picks the oldest EMPTY process (round-robin)"
(§4.1) — the first EMPTY process in round-robin order after the last
granted process. -/
def find_empty_pid (e : harq_entity) : Option Nat :=
  find_empty_aux e.procs (e.last_pid + 1) 0 e.procs.length

/-- A freshly granted process: PENDING, retry counter reset, transmission
TTI and size recorded. -/
def harq_proc_pending (tti tbs : Nat) : harq_proc :=
  { state := harq_state.PENDING, n_rtx := 0, tx_tti := tti, tbs := tbs }

/-- Modelled from the spec: `new_transmission(tti, size, harq_process?)`
(§4.1) — an explicitly requested process is granted only if EMPTY;
otherwise the oldest EMPTY process in round-robin order is granted, and
the call fails with `NoFreeProcess` if all processes are occupied.  A
grant moves the process to PENDING and advances the round-robin position;
a failure makes no grant and leaves the entity unchanged. -/
def new_transmission (e : harq_entity) (tti tbs : Nat) (req : Option Nat) :
    Except harq_err (Nat × harq_entity) :=
  match req with
  | some pid =>
    match e.procs[pid]? with
    | some p =>
      if p.state = harq_state.EMPTY then
        Except.ok (pid, { e with procs := e.procs.set pid (harq_proc_pending tti tbs),
                                 last_pid := pid })
      else Except.error harq_err.InvalidProcess
    | none => Except.error harq_err.InvalidProcess
  | none =>
    match find_empty_pid e with
    | some pid =>
      Except.ok (pid, { e with procs := e.procs.set pid (harq_proc_pending tti tbs),
                               last_pid := pid })
    | none => Except.error harq_err.NoFreeProcess

/-- Modelled from the spec: `receive_ack(tti, process_id, success)` (§4.1)
— success empties the process; failure moves it to RETRANSMIT and
increments the retry counter, except that exceeding the configured maximum
drops the process to EMPTY and signals data loss (the returned flag). -/
def receive_ack (e : harq_entity) (pid : Nat) (success : Bool) :
    harq_entity × Bool :=
  match e.procs[pid]? with
  | none => (e, false)
  | some p =>
    if success then
      ({ e with procs := e.procs.set pid { p with state := harq_state.EMPTY, n_rtx := 0 } },
       false)
    else if e.max_retx < p.n_rtx + 1 then
      ({ e with procs := e.procs.set pid { p with state := harq_state.EMPTY, n_rtx := 0 } },
       true)
    else
      ({ e with procs := e.procs.set pid { p with state := harq_state.RETRANSMIT,
                                                  n_rtx := p.n_rtx + 1 } },
       false)

theorem mem_of_idx {α : Type} (l : List α) (i : Nat) (p : α)
    (h : l[i]? = some p) : p ∈ l := by
  apply List.get?_mem
  rw [List.get?_eq_getElem?]
  exact h

theorem find_empty_aux_none_of_all (procs : List harq_proc) (start : Nat)
    (hall : ∀ p ∈ procs, p.state ≠ harq_state.EMPTY) :
    ∀ rem off, find_empty_aux procs start off rem = none := by
  intro rem
  induction rem with
  | zero => intro off; rfl
  | succ r ih =>
    intro off
    unfold find_empty_aux
    split
    next p hm =>
      rw [if_neg (hall p (mem_of_idx _ _ _ hm))]
      exact ih (off + 1)
    next => rfl

theorem find_empty_aux_some_spec (procs : List harq_proc) (start : Nat) :
    ∀ rem off i, find_empty_aux procs start off rem = some i →
      ∃ k, off ≤ k ∧ k < off + rem ∧ i = (start + k) % procs.length
        ∧ (∃ p, procs[i]? = some p ∧ p.state = harq_state.EMPTY)
        ∧ (∀ j, off ≤ j → j < k →
            ∀ p, procs[(start + j) % procs.length]? = some p →
              p.state ≠ harq_state.EMPTY) := by
  intro rem
  induction rem with
  | zero => intro off i h; exact absurd h (by simp [find_empty_aux])
  | succ r ih =>
    intro off i h
    unfold find_empty_aux at h
    split at h
    next p hm =>
      by_cases hemp : p.state = harq_state.EMPTY
      · rw [if_pos hemp] at h
        refine ⟨off, le_refl off, by omega, (Option.some_inj.mp h).symm, ?_, ?_⟩
        · exact ⟨p, by rw [← Option.some_inj.mp h]; exact hm, hemp⟩
        · intro j hj1 hj2
          omega
      · rw [if_neg hemp] at h
        obtain ⟨k, hk1, hk2, hk3, hk4, hk5⟩ := ih (off + 1) i h
        refine ⟨k, by omega, by omega, hk3, hk4, ?_⟩
        intro j hj1 hj2 q hq
        by_cases hje : j = off
        · subst hje
          rw [hq] at hm
          rw [Option.some_inj.mp hm]
          exact hemp
        · exact hk5 j (by omega) hj2 q hq
    next hm => simp at h

theorem mod_shift_surj (start len i : Nat) (hlen : 0 < len) (hi : i < len) :
    ∃ j, j < len ∧ (start + j) % len = i := by
  have hs : start % len < len := Nat.mod_lt _ hlen
  refine ⟨(len - start % len + i) % len, Nat.mod_lt _ hlen, ?_⟩
  have h2 : (start + (len - start % len + i) % len) % len
      = (start + (len - start % len + i)) % len :=
    Nat.ModEq.add_left start (Nat.mod_modEq _ _)
  rw [h2]
  have h3 : start + (len - start % len + i) = i + len * (start / len + 1) := by
    rw [Nat.mul_add, Nat.mul_one]
    have h4 := Nat.div_add_mod start len
    omega
  rw [h3, Nat.add_mul_mod_self_left, Nat.mod_eq_of_lt hi]

theorem find_empty_aux_none_spec (procs : List harq_proc) (start : Nat) :
    ∀ rem off, find_empty_aux procs start off rem = none →
      ∀ j, off ≤ j → j < off + rem →
        ∀ p, procs[(start + j) % procs.length]? = some p →
          p.state ≠ harq_state.EMPTY := by
  intro rem
  induction rem with
  | zero => intro off _ j hj1 hj2; omega
  | succ r ih =>
    intro off h j hj1 hj2 p hp
    unfold find_empty_aux at h
    split at h
    next q hm =>
      by_cases hemp : q.state = harq_state.EMPTY
      · rw [if_pos hemp] at h
        simp at h
      · rw [if_neg hemp] at h
        by_cases hje : j = off
        · subst hje
          rw [hp] at hm
          rw [Option.some_inj.mp hm]
          exact hemp
        · exact ih (off + 1) h j (by omega) (by omega) p hp
    next hm =>
      have hlen0 : procs.length = 0 := by
        by_contra hne
        have hlt : (start + off) % procs.length < procs.length :=
          Nat.mod_lt _ (by omega)
        have hle := List.getElem?_eq_none_iff.mp hm
        omega
      have hnil : procs = [] := List.length_eq_zero.mp hlen0
      subst hnil
      simp at hp

theorem find_empty_pid_isSome_of_empty (e : harq_entity)
    (h : ∃ (i : Nat) (p : harq_proc), e.procs[i]? = some p ∧ p.state = harq_state.EMPTY) :
    ∃ pid, find_empty_pid e = some pid := by
  obtain ⟨i, p, hip, hemp⟩ := h
  have hilen : i < e.procs.length := by
    by_contra hle
    rw [List.getElem?_eq_none (by omega)] at hip
    exact absurd hip (by simp)
  have hlen : 0 < e.procs.length := by omega
  cases hf : find_empty_pid e with
  | some pid => exact ⟨pid, rfl⟩
  | none =>
    exfalso
    obtain ⟨j, hj, hjm⟩ := mod_shift_surj (e.last_pid + 1) e.procs.length i hlen hilen
    have := find_empty_aux_none_spec e.procs (e.last_pid + 1) e.procs.length 0 hf
      j (Nat.zero_le j) (by omega) p (by rw [hjm]; exact hip)
    exact this hemp

theorem getElem?_set_self {α : Type} (l : List α) (n : Nat) (a : α)
    (h : n < l.length) : (l.set n a)[n]? = some a := by
  rw [List.getElem?_set_self']
  simp [List.getElem?_eq_getElem h]

/-- Claim C3: with no explicitly requested process, `new_transmission`
fails with `NoFreeProcess` when every process is occupied; when at least
one process is EMPTY it grants the oldest EMPTY process in round-robin
order (the first EMPTY slot after the last granted process, every earlier
slot in that order being occupied), marking it PENDING; and after a
failure, a successful feedback event on any process frees it so that the
next `new_transmission` succeeds. -/
theorem C3_new_transmission_round_robin (e : harq_entity) (tti tbs : Nat) :
    ((∀ p ∈ e.procs, p.state ≠ harq_state.EMPTY) →
        new_transmission e tti tbs none = Except.error harq_err.NoFreeProcess)
      ∧ ((∃ (i : Nat) (p : harq_proc),
            e.procs[i]? = some p ∧ p.state = harq_state.EMPTY) →
          ∃ pid e' k,
            new_transmission e tti tbs none = Except.ok (pid, e')
              ∧ e' = { e with procs := e.procs.set pid (harq_proc_pending tti tbs),
                              last_pid := pid }
              ∧ k < e.procs.length
              ∧ pid = (e.last_pid + 1 + k) % e.procs.length
              ∧ (∃ p, e.procs[pid]? = some p ∧ p.state = harq_state.EMPTY)
              ∧ (∀ j, j < k →
                  ∀ p, e.procs[(e.last_pid + 1 + j) % e.procs.length]? = some p →
                    p.state ≠ harq_state.EMPTY))
      ∧ (∀ (pid : Nat) (p : harq_proc), e.procs[pid]? = some p →
          ∃ pid' e'',
            new_transmission ((receive_ack e pid true).1) tti tbs none
              = Except.ok (pid', e'')) := by
  refine ⟨fun hall => ?_, fun hemp => ?_, fun pid p hp => ?_⟩
  · have hnone : find_empty_pid e = none :=
      find_empty_aux_none_of_all e.procs (e.last_pid + 1) hall e.procs.length 0
    simp [new_transmission, find_empty_pid] at hnone ⊢
    rw [hnone]
  · obtain ⟨pid, hf⟩ := find_empty_pid_isSome_of_empty e hemp
    obtain ⟨k, _, hk2, hk3, hk4, hk5⟩ :=
      find_empty_aux_some_spec e.procs (e.last_pid + 1) e.procs.length 0 pid hf
    refine ⟨pid, _, k, ?_, rfl, by omega, hk3, hk4, fun j hj => hk5 j (Nat.zero_le j) hj⟩
    simp [new_transmission, find_empty_pid] at hf ⊢
    rw [hf]
  · have hlt : pid < e.procs.length := by
      by_contra hge
      rw [List.getElem?_eq_none (by omega)] at hp
      exact absurd hp (by simp)
    have hra : (receive_ack e pid true).1
        = { e with
            procs := e.procs.set pid { p with state := harq_state.EMPTY, n_rtx := 0 } } := by
      simp [receive_ack, hp]
    have hemp2 : ∃ (i : Nat) (q : harq_proc),
        ((receive_ack e pid true).1).procs[i]? = some q
          ∧ q.state = harq_state.EMPTY := by
      refine ⟨pid, { p with state := harq_state.EMPTY, n_rtx := 0 }, ?_, rfl⟩
      rw [hra]
      exact getElem?_set_self _ _ _ (by simpa using hlt)
    obtain ⟨pid', hf⟩ := find_empty_pid_isSome_of_empty _ hemp2
    refine ⟨pid',
      { (receive_ack e pid true).1 with
        procs := ((receive_ack e pid true).1).procs.set pid' (harq_proc_pending tti tbs),
        last_pid := pid' }, ?_⟩
    simp [new_transmission, find_empty_pid] at hf ⊢
    rw [hf]

/-- A fully occupied two-process HARQ entity for the C3 witness. -/
def harq_entity_demo : harq_entity :=
  { procs := [{ state := harq_state.PENDING, n_rtx := 0, tx_tti := 0, tbs := 8 },
              { state := harq_state.PENDING, n_rtx := 0, tx_tti := 0, tbs := 8 }],
    last_pid := 0, max_retx := 3 }

/-- Claim C3 witness: on the fully occupied entity a new transmission
fails with `NoFreeProcess`; after a positive feedback event on process 1
the next new transmission succeeds. -/
theorem C3_witness :
    new_transmission harq_entity_demo 5 16 none
        = Except.error harq_err.NoFreeProcess
      ∧ ∃ pid' e'',
        new_transmission ((receive_ack harq_entity_demo 1 true).1) 5 16 none
          = Except.ok (pid', e'') :=
  ⟨(C3_new_transmission_round_robin harq_entity_demo 5 16).1 (by decide),
   (C3_new_transmission_round_robin harq_entity_demo 5 16).2.2 1
     { state := harq_state.PENDING, n_rtx := 0, tx_tti := 0, tbs := 8 } (by decide)⟩

/-! ## Resource-grid allocator (scheduler core; not among the sources) -/

/-- Modelled from the spec: §4.3 `available_blocks` for one carrier,
direction and TTI — entry `i` is `true` when resource block `i` is already
consumed (fixed reservation or an earlier grant of the same TTI). -/
abbrev rbg_mask := List Bool

/-- Blocks `s, s+1, ..., s+l-1` all lie inside the mask and are free. -/
def freeRun (m : rbg_mask) (s l : Nat) : Prop :=
  ∀ i, i < l → m[s + i]? = some false

instance freeRun_decidable (m : rbg_mask) (s l : Nat) : Decidable (freeRun m s l) := by
  unfold freeRun
  infer_instance

/-- Lowest start position of a free run of `l` blocks, when one exists. -/
def find_free_start (m : rbg_mask) (l : Nat) : Option Nat :=
  (List.range (m.length + 1)).find? fun s => decide (freeRun m s l)

/-- Modelled from the spec: §4.3 per-candidate range search — "the largest
contiguous block range the candidate can use (bounded by its requested
size and any config-imposed per-user cap)"; smaller grants are tried when
no run of the attempted size remains, "unless a minimum-grant-size policy
rejects partial grants".  Tries run lengths from the bound downwards,
stopping at the minimum grant size. -/
def find_grant (m : rbg_mask) (ming : Nat) : Nat → Option (Nat × Nat)
  | 0 => none
  | l + 1 =>
    if l + 1 < ming then none
    else
      match find_free_start m (l + 1) with
      | some s => some (s, l + 1)
      | none => find_grant m ming l

/-- Modelled from the spec: one allocation candidate of §4.3 — the user,
whether it is a retransmission (§4.1) or new data, the requested size, the
config-imposed per-user cap, and the minimum-grant-size policy bound. -/
structure sched_candidate where
  rnti : Nat
  is_retx : Bool
  req_size : Nat
  max_size : Nat
  min_grant : Nat
deriving DecidableEq

/-- One element of a per-TTI, per-carrier, per-direction assignment set
(§3): the user, the retransmission flag, and the granted contiguous
resource-block range `[rb_start, rb_start + rb_len)`. -/
structure rb_assignment where
  rnti : Nat
  is_retx : Bool
  rb_start : Nat
  rb_len : Nat
deriving DecidableEq

/-- Marks blocks `[s, s+l)` of the mask as used. -/
def mask_mark : rbg_mask → Nat → Nat → rbg_mask
  | [], _, _ => []
  | b :: bs, s + 1, l => b :: mask_mark bs s l
  | b :: bs, 0, 0 => b :: bs
  | _ :: bs, 0, l + 1 => true :: mask_mark bs 0 l

/-- Modelled from the spec: the attempt to serve one candidate (§4.3): a
grant is carved out of the available blocks and those blocks are removed
from availability; an unserved candidate receives no grant. -/
def alloc_one (m : rbg_mask) (c : sched_candidate) :
    Option (rb_assignment × rbg_mask) :=
  match find_grant m c.min_grant (min c.req_size c.max_size) with
  | none => none
  | some (s, l) =>
    some ({ rnti := c.rnti, is_retx := c.is_retx, rb_start := s, rb_len := l },
          mask_mark m s l)

/-- Modelled from the spec: `allocate(carrier, direction, candidates,
available_blocks)` (§4.3) — candidates are visited in the given (priority)
order; exhaustion is not an error, unserved candidates simply receive no
grant this TTI. -/
def allocate (m : rbg_mask) : List sched_candidate → List rb_assignment × rbg_mask
  | [] => ([], m)
  | c :: cs =>
    match alloc_one m c with
    | none => allocate m cs
    | some (a, m') => (a :: (allocate m' cs).1, (allocate m' cs).2)

/-- Modelled from the spec: §4.4 steps 3-4 for one carrier, direction and
TTI — retransmission candidates are placed strictly before any
new-transmission candidate in the visited order. -/
def schedule_tti (m : rbg_mask) (retx_cands new_cands : List sched_candidate) :
    List rb_assignment × rbg_mask :=
  allocate m (retx_cands ++ new_cands)

/-- Resource block `i` belongs to the assignment's range. -/
def covers (a : rb_assignment) (i : Nat) : Prop :=
  a.rb_start ≤ i ∧ i < a.rb_start + a.rb_len

/-- Two assignments occupy disjoint resource-block ranges. -/
def rb_disjoint (a b : rb_assignment) : Prop :=
  ∀ i, covers a i → ¬ covers b i

theorem idx_lt_of_getElem?_some {α : Type} {l : List α} {i : Nat} {v : α}
    (h : l[i]? = some v) : i < l.length := by
  by_contra hge
  rw [List.getElem?_eq_none (by omega)] at h
  exact absurd h (by simp)

theorem find_free_start_freeRun {m : rbg_mask} {l s : Nat}
    (h : find_free_start m l = some s) : freeRun m s l := by
  have := List.find?_some h
  exact of_decide_eq_true this

theorem find_grant_spec {m : rbg_mask} {g : Nat} :
    ∀ {L s l : Nat}, find_grant m g L = some (s, l) →
      freeRun m s l ∧ 0 < l ∧ g ≤ l ∧ l ≤ L := by
  intro L
  induction L with
  | zero => intro s l h; exact absurd h (by simp [find_grant])
  | succ L ih =>
    intro s l h
    unfold find_grant at h
    by_cases hming : L + 1 < g
    · rw [if_pos hming] at h
      exact absurd h (by simp)
    · rw [if_neg hming] at h
      cases hfs : find_free_start m (L + 1) with
      | some s' =>
        rw [hfs] at h
        injection h with hpair
        injection hpair with hs1 hl1
        subst hs1
        subst hl1
        exact ⟨find_free_start_freeRun hfs, by omega, by omega, le_refl _⟩
      | none =>
        rw [hfs] at h
        obtain ⟨h1, h2, h3, h4⟩ := ih h
        exact ⟨h1, h2, h3, by omega⟩

theorem mask_mark_length : ∀ (m : rbg_mask) (s l : Nat),
    (mask_mark m s l).length = m.length
  | [], _, _ => rfl
  | b :: bs, s + 1, l => by
    simp only [mask_mark, List.length_cons, mask_mark_length bs s l]
  | b :: bs, 0, 0 => rfl
  | b :: bs, 0, l + 1 => by
    simp only [mask_mark, List.length_cons, mask_mark_length bs 0 l]

theorem mask_mark_get_outside : ∀ (m : rbg_mask) (s l i : Nat),
    i < s ∨ s + l ≤ i → (mask_mark m s l)[i]? = m[i]?
  | [], _, _, _, _ => by simp [mask_mark]
  | b :: bs, s + 1, l, 0, _ => by simp [mask_mark]
  | b :: bs, s + 1, l, i + 1, h => by
    simp only [mask_mark, List.getElem?_cons_succ]
    exact mask_mark_get_outside bs s l i (by omega)
  | b :: bs, 0, 0, i, h => by simp [mask_mark]
  | b :: bs, 0, l + 1, 0, h => by omega
  | b :: bs, 0, l + 1, i + 1, h => by
    simp only [mask_mark, List.getElem?_cons_succ]
    exact mask_mark_get_outside bs 0 l i (by omega)

theorem mask_mark_get_inside : ∀ (m : rbg_mask) (s l i : Nat),
    s ≤ i → i < s + l → i < m.length → (mask_mark m s l)[i]? = some true
  | [], _, _, _, _, _, hlen => by simp at hlen
  | b :: bs, s + 1, l, 0, hs, _, _ => by omega
  | b :: bs, s + 1, l, i + 1, hs, hl, hlen => by
    simp only [mask_mark, List.getElem?_cons_succ]
    exact mask_mark_get_inside bs s l i (by omega) (by omega) (by simpa using hlen)
  | b :: bs, 0, 0, i, _, hl, _ => by omega
  | b :: bs, 0, l + 1, 0, _, _, _ => by simp [mask_mark]
  | b :: bs, 0, l + 1, i + 1, _, hl, hlen => by
    simp only [mask_mark, List.getElem?_cons_succ]
    exact mask_mark_get_inside bs 0 l i (Nat.zero_le i) (by omega) (by simpa using hlen)

theorem alloc_one_spec {m : rbg_mask} {c : sched_candidate}
    {a : rb_assignment} {m' : rbg_mask} (h : alloc_one m c = some (a, m')) :
    freeRun m a.rb_start a.rb_len ∧ 0 < a.rb_len
      ∧ m' = mask_mark m a.rb_start a.rb_len
      ∧ a.rnti = c.rnti ∧ a.is_retx = c.is_retx := by
  unfold alloc_one at h
  cases hg : find_grant m c.min_grant (min c.req_size c.max_size) with
  | none => rw [hg] at h; exact absurd h (by simp)
  | some sl =>
    rw [hg] at h
    obtain ⟨s, l⟩ := sl
    have ha := Option.some_inj.mp h
    obtain ⟨h1, h2, -, -⟩ := find_grant_spec hg
    cases ha
    exact ⟨h1, h2, rfl, rfl, rfl⟩

theorem alloc_one_free {m : rbg_mask} {c : sched_candidate}
    {a : rb_assignment} {m' : rbg_mask} (h : alloc_one m c = some (a, m'))
    {i : Nat} (hc : covers a i) : m[i]? = some false := by
  obtain ⟨hfree, -, -, -, -⟩ := alloc_one_spec h
  obtain ⟨hc1, hc2⟩ := hc
  have := hfree (i - a.rb_start) (by omega)
  rwa [Nat.add_sub_cancel' hc1] at this

theorem alloc_one_marks {m : rbg_mask} {c : sched_candidate}
    {a : rb_assignment} {m' : rbg_mask} (h : alloc_one m c = some (a, m'))
    {i : Nat} (hc : covers a i) : m'[i]? = some true := by
  obtain ⟨hfree, -, hm', -, -⟩ := alloc_one_spec h
  have hfi : m[i]? = some false := alloc_one_free h hc
  have hlen : i < m.length := idx_lt_of_getElem?_some hfi
  rw [hm']
  exact mask_mark_get_inside m a.rb_start a.rb_len i hc.1 hc.2 hlen

theorem alloc_one_mono_used {m : rbg_mask} {c : sched_candidate}
    {a : rb_assignment} {m' : rbg_mask} (h : alloc_one m c = some (a, m'))
    {i : Nat} (hu : m[i]? = some true) : m'[i]? = some true := by
  obtain ⟨-, -, hm', -, -⟩ := alloc_one_spec h
  by_cases hc : covers a i
  · exact alloc_one_marks h hc
  · rw [hm', mask_mark_get_outside m a.rb_start a.rb_len i (by unfold covers at hc; omega)]
    exact hu

theorem allocate_no_cover_used :
    ∀ (cs : List sched_candidate) (m : rbg_mask) (i : Nat),
      m[i]? = some true →
      ∀ a ∈ (allocate m cs).1, ¬ covers a i := by
  intro cs
  induction cs with
  | nil => intro m i _ a ha; simp [allocate] at ha
  | cons c cs ih =>
    intro m i hu a ha
    unfold allocate at ha
    cases halloc : alloc_one m c with
    | none =>
      rw [halloc] at ha
      exact ih m i hu a ha
    | some am =>
      rw [halloc] at ha
      obtain ⟨a0, m'⟩ := am
      simp only [List.mem_cons] at ha
      cases ha with
      | inl heq =>
        subst heq
        intro hc
        have := alloc_one_free halloc hc
        rw [hu] at this
        exact absurd (Option.some_inj.mp this) (by simp)
      | inr hmem =>
        exact ih m' i (alloc_one_mono_used halloc hu) a hmem

/-- Claim C1: every assignment set the allocator produces for one carrier,
direction and TTI has pairwise disjoint resource-block ranges, for every
starting availability mask and every candidate list. -/
theorem C1_allocator_disjointness (m : rbg_mask) (cands : List sched_candidate) :
    List.Pairwise rb_disjoint (allocate m cands).1 := by
  induction cands generalizing m with
  | nil => simp [allocate]
  | cons c cs ih =>
    unfold allocate
    cases halloc : alloc_one m c with
    | none => exact ih m
    | some am =>
      obtain ⟨a0, m'⟩ := am
      refine List.Pairwise.cons ?_ (ih m')
      intro b hb i hcov
      have hm' : m'[i]? = some true := alloc_one_marks halloc hcov
      exact allocate_no_cover_used cs m' i hm' b hb

theorem allocate_cons (m : rbg_mask) (c : sched_candidate)
    (cs : List sched_candidate) :
    allocate m (c :: cs)
      = match alloc_one m c with
        | none => allocate m cs
        | some (a, m') => (a :: (allocate m' cs).1, (allocate m' cs).2) := rfl

theorem allocate_append :
    ∀ (xs ys : List sched_candidate) (m : rbg_mask),
      allocate m (xs ++ ys)
        = ((allocate m xs).1 ++ (allocate (allocate m xs).2 ys).1,
           (allocate (allocate m xs).2 ys).2) := by
  intro xs
  induction xs with
  | nil => intro ys m; simp [allocate]
  | cons c cs ih =>
    intro ys m
    simp only [List.cons_append, allocate_cons]
    cases halloc : alloc_one m c with
    | none =>
      simp only [halloc]
      exact ih ys m
    | some am =>
      obtain ⟨a0, m'⟩ := am
      simp only [halloc]
      rw [ih ys m']
      simp

/-- Claim C2: retransmission candidates are allocated strictly before any
new-transmission candidate on the same carrier, direction and TTI — the
produced assignment list is the retransmission allocations followed by the
new-transmission allocations over the remaining blocks; and when a user
has both a pending retransmission and a new-data request of which only one
fits the remaining resource blocks, the retransmission is the one granted
(its assignment is produced, the new transmission gets none). -/
theorem C2_retransmission_precedence (m : rbg_mask) (r n : sched_candidate)
    (a : rb_assignment) (m' : rbg_mask)
    (h1 : alloc_one m r = some (a, m')) (h2 : alloc_one m' n = none) :
    (∀ (m0 : rbg_mask) (retx_cands new_cands : List sched_candidate),
        (schedule_tti m0 retx_cands new_cands).1
          = (allocate m0 retx_cands).1
            ++ (allocate (allocate m0 retx_cands).2 new_cands).1)
      ∧ (schedule_tti m [r] [n]).1 = [a]
      ∧ a.rnti = r.rnti ∧ a.is_retx = r.is_retx := by
  obtain ⟨-, -, -, h4, h5⟩ := alloc_one_spec h1
  refine ⟨fun m0 xs ys => ?_, ?_, h4, h5⟩
  · rw [schedule_tti, allocate_append]
  · simp [schedule_tti, allocate_cons, allocate, h1, h2]

/-- An availability mask with exactly two free blocks, for the C2 witness. -/
def rbg_mask_demo : rbg_mask := [false, false]

/-- Retransmission candidate of user 1 needing two blocks (no partial
grant accepted). -/
def retx_cand_demo : sched_candidate :=
  { rnti := 1, is_retx := true, req_size := 2, max_size := 2, min_grant := 2 }

/-- New-data candidate of the same user 1, also needing two blocks. -/
def new_cand_demo : sched_candidate :=
  { rnti := 1, is_retx := false, req_size := 2, max_size := 2, min_grant := 2 }

/-- The expected grant for the retransmission candidate: blocks [0, 2). -/
def retx_assignment_demo : rb_assignment :=
  { rnti := 1, is_retx := true, rb_start := 0, rb_len := 2 }

/-- Claim C2 witness: user 1 has a retransmission and a new-data request,
and only one of the two fits the two free blocks — the TTI schedule grants
exactly the retransmission. -/
theorem C2_witness :
    (schedule_tti rbg_mask_demo [retx_cand_demo] [new_cand_demo]).1
        = [retx_assignment_demo]
      ∧ retx_assignment_demo.rnti = retx_cand_demo.rnti
      ∧ retx_assignment_demo.is_retx = retx_cand_demo.is_retx := by
  have h := C2_retransmission_precedence rbg_mask_demo retx_cand_demo
    new_cand_demo retx_assignment_demo [true, true] (by decide) (by decide)
  exact ⟨h.2.1, h.2.2.1, h.2.2.2⟩
